import Mathlib

/-!
Shallow embedding of the uHand servo action player and the ESP32Cam vision
sensor link from the `uHandNumberGame` repository.

Sources embedded here:
* `examples/uhand_actions/uhand_servo.cpp` — table-driven action player
  (`HW_ACTION_CTL::action_set`, `action_state_get`, `action_task`).
* `examples/uhand_actions_simple/uhand_servo.cpp` — single-shot variant of
  `action_task`.
* `examples/uhand_colors_clamp_esp32cam/hw_esp32cam_ctl.cpp` and
  `examples/uhand_colors_trace_esp32cam/hw_esp32cam_ctl.cpp` — bus read
  primitive `WireReadDataArray` and the public methods `faceDetect`,
  `colorDetect`, `color_position`.

The action table (`actions.h`) is a compiled-in resource that is not part of
the repository snapshot, so the table is a parameter of the model: a total
function from a row index (an `Int`, because `action_num` is a C `int` and
the row index `action_num - 1` may be negative) and a frame index to the
seven columns of a frame.  C `uint8_t` cells are modelled as `Nat` reduced
`% 256` at each store; C `uint32_t` arithmetic on `millis()` is modelled
`% 2^32`.
-/

namespace HW_ACTION_CTL

/-- `2^32`, the modulus of C `uint32_t` arithmetic. -/
def u32 : Nat := 4294967296

/-- C `uint32_t` subtraction `a - b` (wrap-around), both operands reduced. -/
def u32sub (a b : Nat) : Nat := (a % u32 + u32 - b % u32) % u32

/-- The mutable state of `HW_ACTION_CTL` together with the function-local
statics of `action_task` (`last_tick`, `step`, `num`, `delay_count`).
`extended_func_angles` is the 6-entry `uint8_t` output buffer, `action_num`
the C `int` field of the class. -/
structure ActionState where
  action_num : Int
  extended_func_angles : Fin 6 → Nat
  last_tick : Nat
  step : Nat
  num : Nat
  delay_count : Nat

/-- Initial value of `extended_func_angles` from the class declaration:
`{ 0,0,0,0,0, 90 }`. -/
def initAngles : Fin 6 → Nat := ![0, 0, 0, 0, 0, 90]

/-- `HW_ACTION_CTL::action_set`: store the requested index, unvalidated. -/
def action_set (n : Int) (s : ActionState) : ActionState :=
  { s with action_num := n }

/-- `HW_ACTION_CTL::action_state_get`: return `action_num`. -/
def action_state_get (s : ActionState) : Int := s.action_num

/-- `HW_ACTION_CTL::action_task` of the table-driven variant
(`examples/uhand_actions/uhand_servo.cpp`).  `tbl` is the action table from
`actions.h` (row, frame, column), `action_count` its row count, and `t` the
value returned by `millis()` during this call. -/
def action_task (tbl : Int → Nat → Fin 7 → Nat) (action_count : Int)
    (t : Nat) (s : ActionState) : ActionState :=
  if s.action_num ≠ 0 ∧ s.action_num ≤ action_count then
    if u32sub t s.last_tick < 100 then s
    else
      let s1 := { s with last_tick := t % u32 }
      match s1.step with
      | 0 =>
        if tbl (s1.action_num - 1) s1.num 0 ≠ 0 then
          { s1 with
            extended_func_angles := fun i => tbl (s1.action_num - 1) s1.num i.succ % 256
            step := 1 }
        else
          { s1 with num := 0, action_num := 0 }
      | 1 =>
        if (s1.delay_count + 1) % 256 > 2 then
          { s1 with num := (s1.num + 1) % 256, delay_count := 0, step := 0 }
        else
          { s1 with delay_count := (s1.delay_count + 1) % 256 }
      | _ + 2 => { s1 with step := 0 }
  else s

/-- The table row access performed by a call to `action_task`: `some r` when
the call reaches the read `action[action_num-1][num][0]` (guard satisfied,
100ms gate satisfied, `step == 0`), where `r = action_num - 1`, and `none`
when no table row is read. -/
def rowAccessed (action_count : Int) (t : Nat) (s : ActionState) : Option Int :=
  if s.action_num ≠ 0 ∧ s.action_num ≤ action_count then
    if u32sub t s.last_tick < 100 then none
    else if s.step = 0 then some (s.action_num - 1) else none
  else none

/-- One call to `action_task` with the 100ms gate exactly satisfied: the
caller invokes it at `millis() = last_tick + 100`. -/
def tick100 (tbl : Int → Nat → Fin 7 → Nat) (action_count : Int)
    (s : ActionState) : ActionState :=
  action_task tbl action_count ((s.last_tick + 100) % u32) s

/-- `n` successive gated calls to `action_task` (each with the 100ms gate
satisfied). -/
def drive (tbl : Int → Nat → Fin 7 → Nat) (action_count : Int) :
    Nat → ActionState → ActionState
  | 0, s => s
  | n + 1, s => drive tbl action_count n (tick100 tbl action_count s)

/-- The one-row action table of the spec's scenario: frame 0 is
`[1, 10, 20, 30, 40, 50, 60]` (first column 1, i.e. "frame exists"), frame
1 and beyond the all-zero sentinel. -/
def specActionTable : Int → Nat → Fin 7 → Nat :=
  fun _ j i => if j = 0 then (if (i : Nat) = 0 then 1 else 10 * (i : Nat)) else 0

end HW_ACTION_CTL

namespace HW_ACTION_CTL_SIMPLE

open HW_ACTION_CTL (ActionState)

/-- `HW_ACTION_CTL::action_task` of the single-shot variant
(`examples/uhand_actions_simple/uhand_servo.cpp`): the whole selected row is
copied (columns 1..6) in one call and `action_num` is cleared; there is no
time gate and no wait phase.  The row type is `Fin 7 → Nat` since the simple
table is two-dimensional. -/
def action_task (tbl : Int → Fin 7 → Nat) (action_count : Int)
    (s : ActionState) : ActionState :=
  if s.action_num ≠ 0 ∧ s.action_num ≤ action_count then
    { s with
      extended_func_angles := fun i => tbl (s.action_num - 1) i.succ % 256
      action_num := 0 }
  else s

end HW_ACTION_CTL_SIMPLE

namespace HW_ESP32Cam

/-- The environment's answer to one bus transaction at a given register:
whether the register-address write phase succeeded
(`Wire.endTransmission() == 0`), and the bytes the device then makes
available to `Wire.read()`. -/
structure BusResponse where
  writeOk : Bool
  bytes : List Nat

/-- The read loop of `WireReadDataArray`: `while (Wire.available()) { if (i
>= len) return -1; val[i] = Wire.read(); i++; }` followed by `return i`.
The loop counter `i` is a C `unsigned char`, hence the `% 256` on its
increment; the destination `val` is a `uint8_t` buffer, hence the `% 256`
on each stored byte.  A store past the end of the Lean list is a no-op of
`List.set`; the callers below always pass a buffer of length `len`. -/
def WireReadLoop : List Nat → List Nat → Nat → Nat → Int × List Nat
  | [], val, i, _ => (Int.ofNat i, val)
  | b :: rest, val, i, len =>
    if len ≤ i then (-1, val)
    else WireReadLoop rest (val.set i (b % 256)) ((i + 1) % 256) len

/-- `WireReadDataArray(reg, val, len)` for the transaction answered by
`resp`: if the register-address write fails, return `-1` with the buffer
untouched; otherwise drain the available bytes and return the count (or
`-1` if more bytes arrive than `len`).  Returns the C return value together
with the final contents of the caller's buffer `val`. -/
def WireReadDataArray (resp : BusResponse) (val : List Nat) (len : Nat) :
    Int × List Nat :=
  if resp.writeOk = false then (-1, val)
  else WireReadLoop resp.bytes val 0 len

/-- `HW_ESP32Cam::faceDetect`: one 4-byte read at register `0x01` into the
local buffer `face_info` (uninitialized in C, hence a parameter here);
true iff exactly 4 bytes arrived and the width byte (index 2) is nonzero. -/
def faceDetect (env : Nat → BusResponse) (face_info : List Nat) : Bool :=
  let r := WireReadDataArray (env 1) face_info 4
  if r.1 = 4 ∧ 0 < r.2.getD 2 0 then true else false

/-- `HW_ESP32Cam::colorDetect` (identical in the clamp and trace variants):
up to three 4-byte reads at registers `0x00`, `0x01`, `0x02`, returning the
first channel code (1/2/3) whose read returned 4 bytes with a nonzero width
byte, else 0.  `info0`, `info1`, `info2` are the rows of the uninitialized
local `color_info[3][4]`. -/
def colorDetect (env : Nat → BusResponse)
    (info0 info1 info2 : List Nat) : Int :=
  let r0 := WireReadDataArray (env 0) info0 4
  if r0.1 = 4 ∧ 0 < r0.2.getD 2 0 then 1
  else
    let r1 := WireReadDataArray (env 1) info1 4
    if r1.1 = 4 ∧ 0 < r1.2.getD 2 0 then 2
    else
      let r2 := WireReadDataArray (env 2) info2 4
      if r2.1 = 4 ∧ 0 < r2.2.getD 2 0 then 3
      else 0

/-- The registers at which `colorDetect` actually issues a read transaction,
in order: the `0x01` and `0x02` reads are skipped once an earlier channel
has returned (short-circuit `return`). -/
def colorDetectReads (env : Nat → BusResponse)
    (info0 info1 info2 : List Nat) : List Nat :=
  let r0 := WireReadDataArray (env 0) info0 4
  if r0.1 = 4 ∧ 0 < r0.2.getD 2 0 then [0]
  else
    let r1 := WireReadDataArray (env 1) info1 4
    if r1.1 = 4 ∧ 0 < r1.2.getD 2 0 then [0, 1]
    else [0, 1, 2]

/-- `HW_ESP32Cam::color_position` of the clamp variant
(`uhand_colors_clamp_esp32cam`): one 4-byte read at register `0x01` into the
caller-supplied buffer; returns the success flag and the final buffer. -/
def color_position (env : Nat → BusResponse) (color_info : List Nat) :
    Bool × List Nat :=
  let r := WireReadDataArray (env 1) color_info 4
  (if r.1 = 4 ∧ 0 < r.2.getD 2 0 then true else false, r.2)

/-- `HW_ESP32Cam::color_position` of the trace variant
(`uhand_colors_trace_esp32cam`): identical except the read is at register
`0x02`. -/
def color_position_trace (env : Nat → BusResponse) (color_info : List Nat) :
    Bool × List Nat :=
  let r := WireReadDataArray (env 2) color_info 4
  (if r.1 = 4 ∧ 0 < r.2.getD 2 0 then true else false, r.2)

/-- A channel "hit" as decided by the code's test on a 4-byte transaction:
the write phase succeeded, exactly 4 bytes arrived, and the width byte
(index 2, reduced to a `uint8_t`) is nonzero. -/
def chanHit (resp : BusResponse) : Prop :=
  resp.writeOk = true ∧ resp.bytes.length = 4 ∧ 0 < resp.bytes.getD 2 0 % 256

instance (resp : BusResponse) : Decidable (chanHit resp) := by
  unfold chanHit; infer_instance

/-- Behaviour of one 4-byte `WireReadDataArray` transaction into a 4-byte
buffer: the returned count is 4 exactly when the write phase succeeded and
the device delivered exactly 4 bytes; in that case the buffer holds the
payload (reduced to bytes), its width entry in particular; a failed write
phase leaves the buffer untouched; and entries at or beyond the number of
delivered bytes are never modified. -/
theorem wireRead4_spec (resp : BusResponse) (buf : List Nat)
    (hb : buf.length = 4) :
    ((WireReadDataArray resp buf 4).1 = 4 ↔
      resp.writeOk = true ∧ resp.bytes.length = 4)
    ∧ (resp.writeOk = true → resp.bytes.length = 4 →
        (WireReadDataArray resp buf 4).2 = resp.bytes.map (fun b => b % 256))
    ∧ (resp.writeOk = true → resp.bytes.length = 4 →
        (WireReadDataArray resp buf 4).2.getD 2 0 = resp.bytes.getD 2 0 % 256)
    ∧ (resp.writeOk = false → (WireReadDataArray resp buf 4).2 = buf)
    ∧ (∀ i, min resp.bytes.length 4 ≤ i →
        (WireReadDataArray resp buf 4).2.getD i 0 = buf.getD i 0) := by
  obtain ⟨wOk, bytes⟩ := resp
  rcases buf with _ | ⟨p, _ | ⟨q, _ | ⟨r, _ | ⟨s, rest⟩⟩⟩⟩ <;>
    simp only [List.length_cons, List.length_nil] at hb <;> try omega
  have hrest : rest = [] := by
    cases rest with
    | nil => rfl
    | cons x xs => simp at hb
  subst hrest
  cases wOk with
  | false => simp [WireReadDataArray]
  | true =>
    refine ⟨?_, ?_, ?_, ?_, ?_⟩
    · rcases bytes with _ | ⟨a, _ | ⟨b, _ | ⟨c, _ | ⟨d, _ | ⟨e, rest2⟩⟩⟩⟩⟩ <;>
        simp [WireReadDataArray, WireReadLoop]
    · rcases bytes with _ | ⟨a, _ | ⟨b, _ | ⟨c, _ | ⟨d, _ | ⟨e, rest2⟩⟩⟩⟩⟩ <;>
        simp [WireReadDataArray, WireReadLoop]
    · rcases bytes with _ | ⟨a, _ | ⟨b, _ | ⟨c, _ | ⟨d, _ | ⟨e, rest2⟩⟩⟩⟩⟩ <;>
        simp [WireReadDataArray, WireReadLoop]
    · simp [WireReadDataArray]
    · rcases bytes with _ | ⟨a, _ | ⟨b, _ | ⟨c, _ | ⟨d, _ | ⟨e, rest2⟩⟩⟩⟩⟩ <;>
        simp only [WireReadDataArray, WireReadLoop, List.set, List.length_cons,
          List.length_nil, if_false, if_true] <;>
        norm_num <;>
        intro i hi <;>
        (rcases i with _ | _ | _ | _ | i <;>
          simp [List.getD_cons_succ, List.getD_cons_zero, List.getD_nil] <;>
          omega)

/-- The success test the detection methods perform on a 4-byte transaction
(`num == 4 && buf[2] > 0`) holds exactly when the channel is a hit. -/
theorem detect_cond_iff (resp : BusResponse) (buf : List Nat)
    (hb : buf.length = 4) :
    ((WireReadDataArray resp buf 4).1 = 4 ∧
      0 < (WireReadDataArray resp buf 4).2.getD 2 0) ↔ chanHit resp := by
  obtain ⟨hc, -, hw2, -, -⟩ := wireRead4_spec resp buf hb
  constructor
  · rintro ⟨h4, hpos⟩
    obtain ⟨hok, hlen⟩ := hc.mp h4
    exact ⟨hok, hlen, by rw [hw2 hok hlen] at hpos; exact hpos⟩
  · rintro ⟨hok, hlen, hpos⟩
    exact ⟨hc.mpr ⟨hok, hlen⟩, by rw [hw2 hok hlen]; exact hpos⟩

end HW_ESP32Cam

open HW_ACTION_CTL in
/-- C4: a call to `action_task` made while `millis() - last_tick < 100`
with an action in progress is a complete no-op: none of `last_tick`,
`step`, `num`, `delay_count`, `action_num` changes and
`extended_func_angles` is not mutated. -/
theorem action_task_gate_noop (tbl : Int → Nat → Fin 7 → Nat) (cnt : Int)
    (t : Nat) (s : ActionState)
    (h1 : s.action_num ≠ 0) (h2 : s.action_num ≤ cnt)
    (hg : u32sub t s.last_tick < 100) :
    action_task tbl cnt t s = s := by
  unfold action_task
  rw [if_pos ⟨h1, h2⟩, if_pos hg]

open HW_ACTION_CTL in
/-- Witness for C4: an in-progress action (`action_num = 1 ≤ 1`) ticked at
`millis() = 50` with `last_tick = 0`: `50 - 0 < 100`, so nothing changes. -/
theorem action_task_gate_noop_witness :
    action_task (fun _ _ _ => 7) 1 50 ⟨1, initAngles, 0, 0, 0, 0⟩ =
      ⟨1, initAngles, 0, 0, 0, 0⟩ :=
  action_task_gate_noop (fun _ _ _ => 7) 1 50 ⟨1, initAngles, 0, 0, 0, 0⟩
    (by decide) (by decide) (by decide)

open HW_ACTION_CTL in
/-- C2: `extended_func_angles` is written only when `action_num ≠ 0` on
entry (an idle call changes nothing at all), and the gated call that reads
the sentinel frame (`action[action_num-1][num][0] == 0`) resets both the
frame index `num` and `action_num` to 0 without writing
`extended_func_angles`. -/
theorem action_task_write_guard (tbl : Int → Nat → Fin 7 → Nat) (cnt : Int)
    (t : Nat) (s : ActionState) :
    (s.action_num = 0 → action_task tbl cnt t s = s)
    ∧ (s.action_num ≠ 0 → s.action_num ≤ cnt →
        ¬ u32sub t s.last_tick < 100 → s.step = 0 →
        tbl (s.action_num - 1) s.num 0 = 0 →
        (action_task tbl cnt t s).num = 0
        ∧ (action_task tbl cnt t s).action_num = 0
        ∧ (action_task tbl cnt t s).extended_func_angles =
            s.extended_func_angles) := by
  constructor
  · intro h0
    unfold action_task
    rw [if_neg]
    rintro ⟨hne, -⟩
    exact hne h0
  · intro h1 h2 hg hs hsent
    obtain ⟨an, ang, lt, st, nm, dc⟩ := s
    simp only at h1 h2 hg hs hsent
    subst hs
    unfold action_task
    rw [if_pos ⟨h1, h2⟩, if_neg hg]
    simp [hsent]

open HW_ACTION_CTL in
/-- Witness for C2: an idle player (`action_num = 0`) is untouched; a
player whose current frame is the sentinel (all-zero table) is reset. -/
theorem action_task_write_guard_witness :
    action_task (fun _ _ _ => 0) 1 100 ⟨0, initAngles, 0, 0, 0, 0⟩ =
      ⟨0, initAngles, 0, 0, 0, 0⟩
    ∧ (action_task (fun _ _ _ => 0) 1 100 ⟨1, initAngles, 0, 0, 0, 0⟩).num = 0
    ∧ (action_task (fun _ _ _ => 0) 1 100
        ⟨1, initAngles, 0, 0, 0, 0⟩).action_num = 0
    ∧ (action_task (fun _ _ _ => 0) 1 100
        ⟨1, initAngles, 0, 0, 0, 0⟩).extended_func_angles = initAngles :=
  ⟨(action_task_write_guard (fun _ _ _ => 0) 1 100
      ⟨0, initAngles, 0, 0, 0, 0⟩).1 rfl,
   (action_task_write_guard (fun _ _ _ => 0) 1 100
      ⟨1, initAngles, 0, 0, 0, 0⟩).2
     (by decide) (by decide) (by decide) rfl rfl⟩

open HW_ACTION_CTL in
/-- C5: in the WAIT state (`step = 1`) a gated call increments the delay
counter (a `uint8_t`); once the incremented counter exceeds 2 it is reset
to 0, the frame index `num` advances by 1 and the machine returns to APPLY
(`step = 0`); otherwise only the counter (and the gate timestamp
`last_tick`, as on every gated call) changes. -/
theorem action_task_wait_state (tbl : Int → Nat → Fin 7 → Nat) (cnt : Int)
    (t : Nat) (s : ActionState)
    (h1 : s.action_num ≠ 0) (h2 : s.action_num ≤ cnt)
    (hg : ¬ u32sub t s.last_tick < 100) (hs : s.step = 1) :
    ((s.delay_count + 1) % 256 > 2 →
      action_task tbl cnt t s =
        { s with last_tick := t % u32, step := 0, num := (s.num + 1) % 256,
                 delay_count := 0 })
    ∧ (¬ (s.delay_count + 1) % 256 > 2 →
      action_task tbl cnt t s =
        { s with last_tick := t % u32,
                 delay_count := (s.delay_count + 1) % 256 }) := by
  obtain ⟨an, ang, lt, st, nm, dc⟩ := s
  simp only at h1 h2 hg hs
  subst hs
  constructor <;> intro hd <;> unfold action_task <;>
    rw [if_pos ⟨h1, h2⟩, if_neg hg] <;> simp [hd]

open HW_ACTION_CTL in
/-- Witness for C5: with `delay_count = 2` the increment reaches 3 > 2 and
the machine advances to frame 1 in APPLY; with `delay_count = 0` only the
counter ticks to 1. -/
theorem action_task_wait_state_witness :
    action_task (fun _ _ _ => 7) 1 100 ⟨1, initAngles, 0, 1, 0, 2⟩ =
      ⟨1, initAngles, 100, 0, 1, 0⟩
    ∧ action_task (fun _ _ _ => 7) 1 100 ⟨1, initAngles, 0, 1, 0, 0⟩ =
      ⟨1, initAngles, 100, 1, 0, 1⟩ :=
  ⟨(action_task_wait_state (fun _ _ _ => 7) 1 100 ⟨1, initAngles, 0, 1, 0, 2⟩
      (by decide) (by decide) (by decide) rfl).1 (by decide),
   (action_task_wait_state (fun _ _ _ => 7) 1 100 ⟨1, initAngles, 0, 1, 0, 0⟩
      (by decide) (by decide) (by decide) rfl).2 (by decide)⟩

open HW_ACTION_CTL in
/-- C6: the single-shot ("simple") variant: for any in-range `action_num`,
one call copies the selected row's six joint values (columns 1..6) into
`extended_func_angles` and clears `action_num`; there is no wait phase and
no gate. -/
theorem simple_action_task_single_shot (tbl : Int → Fin 7 → Nat) (cnt : Int)
    (s : HW_ACTION_CTL.ActionState)
    (h1 : 1 ≤ s.action_num) (h2 : s.action_num ≤ cnt)
    (hbytes : ∀ i : Fin 7, tbl (s.action_num - 1) i < 256) :
    (HW_ACTION_CTL_SIMPLE.action_task tbl cnt s).action_num = 0
    ∧ ∀ i : Fin 6,
        (HW_ACTION_CTL_SIMPLE.action_task tbl cnt s).extended_func_angles i
          = tbl (s.action_num - 1) i.succ := by
  have h1' : s.action_num ≠ 0 := by omega
  unfold HW_ACTION_CTL_SIMPLE.action_task
  rw [if_pos ⟨h1', h2⟩]
  exact ⟨rfl, fun i => Nat.mod_eq_of_lt (hbytes i.succ)⟩

open HW_ACTION_CTL in
/-- Witness for C6: a one-row simple table `[_, 11, 12, 13, 14, 15, 16]`
selected by `action_num = 1` lands in the output buffer in one call. -/
theorem simple_action_task_single_shot_witness :
    (HW_ACTION_CTL_SIMPLE.action_task (fun _ i => 10 + i.val) 1
      ⟨1, initAngles, 0, 0, 0, 0⟩).action_num = 0
    ∧ (HW_ACTION_CTL_SIMPLE.action_task (fun _ i => 10 + i.val) 1
      ⟨1, initAngles, 0, 0, 0, 0⟩).extended_func_angles 0 = 11 := by
  have h := simple_action_task_single_shot (fun _ i => 10 + i.val) 1
    ⟨1, initAngles, 0, 0, 0, 0⟩ (by decide) (by decide)
    (fun i => by show 10 + (i : Nat) < 256; have := i.isLt; omega)
  exact ⟨h.1, h.2 0⟩

open HW_ACTION_CTL in
/-- Counterexample to C9 as stated: `action_num = -1` is outside the range
`1..action_count`, yet a gated `action_task` call is not a no-op: the guard
passes, the table row `-2` is read and `extended_func_angles` is
overwritten. -/
theorem negative_action_not_noop :
    ¬ (1 ≤ (-1 : Int) ∧ (-1 : Int) ≤ 1)
    ∧ rowAccessed 1 100 ⟨-1, initAngles, 0, 0, 0, 0⟩ = some (-2)
    ∧ (action_task (fun _ _ _ => 5) 1 100
        ⟨-1, initAngles, 0, 0, 0, 0⟩).extended_func_angles 0 = 5
    ∧ initAngles 0 = 0 := by
  decide

open HW_ACTION_CTL in
/-- C9 (amended): `action_set` records any requested index without
validation, and an `action_task` call with `action_num = 0` or
`action_num > action_count` reads no table row and changes nothing;
negative requests, however, pass the play-time guard (see the companion
theorem on the guard). -/
theorem action_set_unvalidated_and_high_noop (tbl : Int → Nat → Fin 7 → Nat)
    (cnt : Int) (t : Nat) (s : ActionState)
    (h : s.action_num = 0 ∨ cnt < s.action_num) :
    (∀ (n : Int) (s₂ : ActionState),
      action_state_get (action_set n s₂) = n)
    ∧ action_task tbl cnt t s = s
    ∧ rowAccessed cnt t s = none := by
  have hneg : ¬ (s.action_num ≠ 0 ∧ s.action_num ≤ cnt) := by
    rintro ⟨hne, hle⟩
    rcases h with h | h
    · exact hne h
    · omega
  refine ⟨fun n s₂ => rfl, ?_, ?_⟩
  · unfold action_task
    rw [if_neg hneg]
  · unfold rowAccessed
    rw [if_neg hneg]

open HW_ACTION_CTL in
/-- Witness for the amended C9: `action_set` stores `42`; a request of
`2 > action_count = 1` is ignored by `action_task` with no table read. -/
theorem action_set_unvalidated_and_high_noop_witness :
    action_state_get (action_set 42 ⟨0, initAngles, 0, 0, 0, 0⟩) = 42
    ∧ action_task (fun _ _ _ => 5) 1 100 ⟨2, initAngles, 0, 0, 0, 0⟩ =
        ⟨2, initAngles, 0, 0, 0, 0⟩
    ∧ rowAccessed 1 100 ⟨2, initAngles, 0, 0, 0, 0⟩ = none := by
  have h := action_set_unvalidated_and_high_noop (fun _ _ _ => 5) 1 100
    ⟨2, initAngles, 0, 0, 0, 0⟩ (Or.inr (by decide))
  exact ⟨h.1 42 ⟨0, initAngles, 0, 0, 0, 0⟩, h.2.1, h.2.2⟩

open HW_ACTION_CTL in
/-- C10: the play-time guard tests only `action_num ≠ 0` and
`action_num ≤ action_count`, so every negative request passes it and a
gated APPLY call reaches the table access `action[action_num-1][num][0]`
with the negative row index `action_num - 1`. -/
theorem negative_guard_reaches_table (n : Int) (hn : n < 0) (cnt : Int)
    (hc : 0 ≤ cnt) (t : Nat) (s : ActionState)
    (h1 : s.action_num = n) (h2 : s.step = 0)
    (hg : ¬ u32sub t s.last_tick < 100) :
    rowAccessed cnt t s = some (n - 1) ∧ n - 1 < 0 := by
  refine ⟨?_, by omega⟩
  unfold rowAccessed
  rw [if_pos ⟨by rw [h1]; omega, by rw [h1]; omega⟩, if_neg hg, if_pos h2,
    h1]

open HW_ACTION_CTL in
/-- Witness for C10: the request `-1` against a 1-row table reaches the
table read with row index `-2`. -/
theorem negative_guard_reaches_table_witness :
    rowAccessed 1 100 ⟨-1, initAngles, 0, 0, 0, 0⟩ = some (-1 - 1)
    ∧ (-1 - 1 : Int) < 0 :=
  negative_guard_reaches_table (-1) (by decide) 1 (by decide) 100
    ⟨-1, initAngles, 0, 0, 0, 0⟩ rfl rfl (by decide)

open HW_ESP32Cam in
/-- C3: `colorDetect` reads registers `0x00`, `0x01`, `0x02` in that fixed
order, short-circuiting: it returns 1 as soon as channel 0 returns 4 bytes
with a nonzero width byte (issuing no further reads), else 2 for channel 1,
else 3 for channel 2, else 0 (in particular when every channel reports zero
width). -/
theorem colorDetect_priority (env : Nat → BusResponse)
    (info0 info1 info2 : List Nat)
    (h0 : info0.length = 4) (h1 : info1.length = 4) (h2 : info2.length = 4) :
    colorDetect env info0 info1 info2 =
      (if chanHit (env 0) then 1 else if chanHit (env 1) then 2
       else if chanHit (env 2) then 3 else 0)
    ∧ colorDetectReads env info0 info1 info2 =
      (if chanHit (env 0) then [0] else if chanHit (env 1) then [0, 1]
       else [0, 1, 2]) := by
  have e0 := detect_cond_iff (env 0) info0 h0
  have e1 := detect_cond_iff (env 1) info1 h1
  have e2 := detect_cond_iff (env 2) info2 h2
  constructor
  · simp only [colorDetect, e0, e1, e2]
  · simp only [colorDetectReads, e0, e1]

open HW_ESP32Cam in
/-- Witness for C3: a bus on which every channel answers with the 4-byte
payload `[5,6,7,8]` (width `7 > 0`): the red channel wins and only register
`0x00` is read. -/
theorem colorDetect_priority_witness :
    colorDetect (fun _ => ⟨true, [5, 6, 7, 8]⟩) [0, 0, 0, 0] [0, 0, 0, 0]
      [0, 0, 0, 0] = 1
    ∧ colorDetectReads (fun _ => ⟨true, [5, 6, 7, 8]⟩) [0, 0, 0, 0]
      [0, 0, 0, 0] [0, 0, 0, 0] = [0] := by
  have h := colorDetect_priority (fun _ => ⟨true, [5, 6, 7, 8]⟩)
    [0, 0, 0, 0] [0, 0, 0, 0] [0, 0, 0, 0] rfl rfl rfl
  simpa using h

open HW_ESP32Cam in
/-- C7: round-trip through `color_position` (clamp variant): if the write
phase succeeds and the device returns exactly the 4 requested bytes
`[x, y, w, h]` with `w > 0`, the method returns `true` and the caller's
buffer holds the payload exactly. -/
theorem color_position_roundtrip (env : Nat → BusResponse) (buf : List Nat)
    (hb : buf.length = 4) (x y w h : Nat)
    (henv : env 1 = ⟨true, [x, y, w, h]⟩)
    (hx : x < 256) (hy : y < 256) (hw : w < 256) (hh : h < 256)
    (hpos : 0 < w) :
    color_position env buf = (true, [x, y, w, h]) := by
  obtain ⟨hc, hm, -, -, -⟩ := wireRead4_spec (env 1) buf hb
  have hok : (env 1).writeOk = true := by rw [henv]
  have hlen : (env 1).bytes.length = 4 := by rw [henv]; rfl
  have h4 : (WireReadDataArray (env 1) buf 4).1 = 4 := hc.mpr ⟨hok, hlen⟩
  have hbuf : (WireReadDataArray (env 1) buf 4).2 = [x, y, w, h] := by
    rw [hm hok hlen, henv]
    simp [Nat.mod_eq_of_lt, hx, hy, hw, hh]
  have hcond : (WireReadDataArray (env 1) buf 4).1 = 4 ∧
      0 < (WireReadDataArray (env 1) buf 4).2.getD 2 0 :=
    ⟨h4, by rw [hbuf]; simpa using hpos⟩
  simp only [color_position]
  rw [if_pos hcond, hbuf]

open HW_ESP32Cam in
/-- Witness for C7: the device echoes `[10, 20, 30, 40]` (width `30 > 0`)
into an all-zero buffer. -/
theorem color_position_roundtrip_witness :
    color_position (fun _ => ⟨true, [10, 20, 30, 40]⟩) [0, 0, 0, 0] =
      (true, [10, 20, 30, 40]) :=
  color_position_roundtrip (fun _ => ⟨true, [10, 20, 30, 40]⟩) [0, 0, 0, 0]
    rfl 10 20 30 40 rfl (by decide) (by decide) (by decide) (by decide)
    (by decide)

open HW_ESP32Cam in
/-- Counterexample to C8 as stated: a short read of 2 bytes (`[9, 9]`)
returns a count of `2 ≠ 4`, `color_position` duly returns `false`, but the
output buffer is NOT left untouched: its first two bytes now hold the bytes
that did arrive. -/
theorem color_position_short_read_mutates :
    (WireReadDataArray
        ((fun _ => (⟨true, [9, 9]⟩ : BusResponse)) 1) [0, 0, 0, 0] 4).1 ≠ 4
    ∧ (color_position (fun _ => ⟨true, [9, 9]⟩) [0, 0, 0, 0]).1 = false
    ∧ (color_position (fun _ => ⟨true, [9, 9]⟩) [0, 0, 0, 0]).2 =
        [9, 9, 0, 0] := by
  decide

open HW_ESP32Cam in
/-- C8 (amended): whenever the bus read underlying `faceDetect` or
`color_position` returns a byte count different from 4, the method returns
`false`; buffer entries at or beyond the number of delivered bytes are
untouched, and when the write phase fails (count `-1` with no bytes drained)
the whole buffer is untouched. -/
theorem bad_count_returns_false (env : Nat → BusResponse) (buf : List Nat)
    (hb : buf.length = 4)
    (hne : (WireReadDataArray (env 1) buf 4).1 ≠ 4) :
    faceDetect env buf = false
    ∧ (color_position env buf).1 = false
    ∧ (∀ i, min (env 1).bytes.length 4 ≤ i →
        (color_position env buf).2.getD i 0 = buf.getD i 0)
    ∧ ((env 1).writeOk = false → (color_position env buf).2 = buf) := by
  obtain ⟨-, -, -, hwf, htail⟩ := wireRead4_spec (env 1) buf hb
  have hcond : ¬ ((WireReadDataArray (env 1) buf 4).1 = 4 ∧
      0 < (WireReadDataArray (env 1) buf 4).2.getD 2 0) := by
    rintro ⟨h4, -⟩; exact hne h4
  refine ⟨?_, ?_, ?_, ?_⟩
  · simp only [faceDetect]
    rw [if_neg hcond]
  · simp only [color_position]
    rw [if_neg hcond]
  · simpa only [color_position] using htail
  · simpa only [color_position] using hwf

open HW_ESP32Cam in
/-- Witness for the amended C8: a failed write phase (count `-1`): both
methods report failure and the buffer `[7, 7, 7, 7]` is untouched. -/
theorem bad_count_returns_false_witness :
    faceDetect (fun _ => ⟨false, []⟩) [7, 7, 7, 7] = false
    ∧ (color_position (fun _ => ⟨false, []⟩) [7, 7, 7, 7]).1 = false
    ∧ (color_position (fun _ => ⟨false, []⟩) [7, 7, 7, 7]).2 =
        [7, 7, 7, 7] := by
  have h := bad_count_returns_false (fun _ => ⟨false, []⟩) [7, 7, 7, 7]
    rfl (by decide)
  exact ⟨h.1, h.2.1, h.2.2.2 rfl⟩

namespace HW_ACTION_CTL

/-- A gated call made exactly 100 counts after `last_tick` sees a
`uint32_t` difference of exactly 100, for any stored `last_tick`. -/
theorem u32sub_add_100 (a : Nat) : u32sub ((a + 100) % u32) a = 100 := by
  unfold u32sub u32
  omega

/-- Reducing twice modulo `2^32` is the same as reducing once. -/
theorem u32mod_mod (x : Nat) : x % u32 % u32 = x % u32 := by
  unfold u32
  omega

/-- `drive` peels one gated call off the front. -/
theorem drive_succ (tbl : Int → Nat → Fin 7 → Nat) (cnt : Int) (n : Nat)
    (s : ActionState) :
    drive tbl cnt (n + 1) s = drive tbl cnt n (tick100 tbl cnt s) := rfl

/-- `drive` splits over a sum of call counts. -/
theorem drive_add (tbl : Int → Nat → Fin 7 → Nat) (cnt : Int) (m n : Nat)
    (s : ActionState) :
    drive tbl cnt (m + n) s = drive tbl cnt n (drive tbl cnt m s) := by
  induction m generalizing s with
  | zero => rw [Nat.zero_add]; rfl
  | succ m ih =>
    have h : m + 1 + n = (m + n) + 1 := by omega
    rw [h, drive_succ, ih]
    rfl

/-- One gated APPLY call on an existing frame: copy columns 1..6 of frame
`nm` into the output buffer and move to WAIT. -/
theorem tick100_apply (tbl : Int → Nat → Fin 7 → Nat) (cnt an : Int)
    (ang : Fin 6 → Nat) (lt nm dc : Nat)
    (h1 : an ≠ 0) (h2 : an ≤ cnt) (hf : tbl (an - 1) nm 0 ≠ 0) :
    tick100 tbl cnt ⟨an, ang, lt, 0, nm, dc⟩ =
      ⟨an, fun i => tbl (an - 1) nm i.succ % 256, (lt + 100) % u32, 1, nm,
        dc⟩ := by
  unfold tick100 action_task
  rw [if_pos ⟨h1, h2⟩, if_neg (by rw [u32sub_add_100]; omega)]
  simp [hf, u32mod_mod]

/-- One gated APPLY call on the sentinel frame: reset `num` and
`action_num`, leave the output buffer alone. -/
theorem tick100_sentinel (tbl : Int → Nat → Fin 7 → Nat) (cnt an : Int)
    (ang : Fin 6 → Nat) (lt nm dc : Nat)
    (h1 : an ≠ 0) (h2 : an ≤ cnt) (hf : tbl (an - 1) nm 0 = 0) :
    tick100 tbl cnt ⟨an, ang, lt, 0, nm, dc⟩ =
      ⟨0, ang, (lt + 100) % u32, 0, 0, dc⟩ := by
  unfold tick100 action_task
  rw [if_pos ⟨h1, h2⟩, if_neg (by rw [u32sub_add_100]; omega)]
  simp [hf, u32mod_mod]

/-- One gated WAIT call below the threshold: only the counter ticks. -/
theorem tick100_wait_lt (tbl : Int → Nat → Fin 7 → Nat) (cnt an : Int)
    (ang : Fin 6 → Nat) (lt nm dc : Nat)
    (h1 : an ≠ 0) (h2 : an ≤ cnt) (hd : ¬ (dc + 1) % 256 > 2) :
    tick100 tbl cnt ⟨an, ang, lt, 1, nm, dc⟩ =
      ⟨an, ang, (lt + 100) % u32, 1, nm, (dc + 1) % 256⟩ := by
  unfold tick100 action_task
  rw [if_pos ⟨h1, h2⟩, if_neg (by rw [u32sub_add_100]; omega)]
  simp [hd, u32mod_mod]

/-- One gated WAIT call crossing the threshold: advance the frame index,
reset the counter, return to APPLY. -/
theorem tick100_wait_done (tbl : Int → Nat → Fin 7 → Nat) (cnt an : Int)
    (ang : Fin 6 → Nat) (lt nm dc : Nat)
    (h1 : an ≠ 0) (h2 : an ≤ cnt) (hd : (dc + 1) % 256 > 2) :
    tick100 tbl cnt ⟨an, ang, lt, 1, nm, dc⟩ =
      ⟨an, ang, (lt + 100) % u32, 0, (nm + 1) % 256, 0⟩ := by
  unfold tick100 action_task
  rw [if_pos ⟨h1, h2⟩, if_neg (by rw [u32sub_add_100]; omega)]
  simp [hd, u32mod_mod]

/-- A full APPLY/WAIT cycle: four gated calls play frame `j` and leave the
machine in APPLY at frame `j + 1`. -/
theorem drive_cycle (tbl : Int → Nat → Fin 7 → Nat) (cnt an : Int)
    (ang : Fin 6 → Nat) (lt j : Nat)
    (h1 : an ≠ 0) (h2 : an ≤ cnt) (hj : j + 1 < 256)
    (hf : tbl (an - 1) j 0 ≠ 0) :
    ∃ lt4, drive tbl cnt 4 ⟨an, ang, lt, 0, j, 0⟩ =
      ⟨an, fun i => tbl (an - 1) j i.succ % 256, lt4, 0, j + 1, 0⟩ := by
  refine ⟨((((lt + 100) % u32 + 100) % u32 + 100) % u32 + 100) % u32, ?_⟩
  rw [show (4 : Nat) = 3 + 1 from rfl, drive_succ,
    tick100_apply tbl cnt an ang lt j 0 h1 h2 hf,
    show (3 : Nat) = 2 + 1 from rfl, drive_succ,
    tick100_wait_lt tbl cnt an _ _ j 0 h1 h2 (by decide),
    show (2 : Nat) = 1 + 1 from rfl, drive_succ,
    tick100_wait_lt tbl cnt an _ _ j _ h1 h2 (by norm_num),
    show (1 : Nat) = 0 + 1 from rfl, drive_succ,
    tick100_wait_done tbl cnt an _ _ j _ h1 h2 (by norm_num)]
  show (⟨an, _, _, 0, ((j + 1) % 256), 0⟩ : ActionState) = _
  rw [Nat.mod_eq_of_lt hj]

end HW_ACTION_CTL

open HW_ACTION_CTL in
/-- C1: for an in-range `actionIndex` whose table row has its first
sentinel frame (first column 0) at frame `k`, calling
`action_set(actionIndex)` and then driving `action_task` with the 100ms
gate satisfied on each call applies every frame preceding the sentinel
(columns 1..6, as `uint8_t`) to `extended_func_angles` in increasing frame
order — frame `j` lands after the `4*j+1`-st gated call — and the
`4*k+1`-st gated call makes `action_state_get()` return 0. -/
theorem action_run_completes (tbl : Int → Nat → Fin 7 → Nat) (cnt a : Int)
    (k : Nat) (ang0 : Fin 6 → Nat)
    (ha1 : 1 ≤ a) (ha2 : a ≤ cnt) (hk : k < 256)
    (hfr : ∀ j, j < k → tbl (a - 1) j 0 ≠ 0)
    (hsent : tbl (a - 1) k 0 = 0) :
    (∀ j, j < k →
      (drive tbl cnt (4 * j + 1)
        (action_set a ⟨0, ang0, 0, 0, 0, 0⟩)).extended_func_angles
        = fun i => tbl (a - 1) j i.succ % 256)
    ∧ action_state_get (drive tbl cnt (4 * k + 1)
        (action_set a ⟨0, ang0, 0, 0, 0, 0⟩)) = 0 := by
  have ha0 : a ≠ 0 := by omega
  have hs0 : action_set a ⟨0, ang0, 0, 0, 0, 0⟩ =
      (⟨a, ang0, 0, 0, 0, 0⟩ : ActionState) := rfl
  have inv : ∀ j, j ≤ k → ∃ lt ang,
      drive tbl cnt (4 * j) ⟨a, ang0, 0, 0, 0, 0⟩ = ⟨a, ang, lt, 0, j, 0⟩ := by
    intro j
    induction j with
    | zero => exact fun _ => ⟨0, ang0, rfl⟩
    | succ j ih =>
      intro hjk
      obtain ⟨lt, ang, heq⟩ := ih (by omega)
      obtain ⟨lt4, hcyc⟩ := drive_cycle tbl cnt a ang lt j ha0 ha2
        (by omega) (hfr j (by omega))
      refine ⟨lt4, fun i => tbl (a - 1) j i.succ % 256, ?_⟩
      rw [show 4 * (j + 1) = 4 * j + 4 by ring, drive_add, heq, hcyc]
  refine ⟨?_, ?_⟩
  · intro j hj
    obtain ⟨lt, ang, heq⟩ := inv j (by omega)
    rw [hs0, drive_add, heq, show (1 : Nat) = 0 + 1 from rfl, drive_succ,
      tick100_apply tbl cnt a ang lt j 0 ha0 ha2 (hfr j hj)]
    rfl
  · obtain ⟨lt, ang, heq⟩ := inv k le_rfl
    rw [hs0, drive_add, heq, show (1 : Nat) = 0 + 1 from rfl, drive_succ,
      tick100_sentinel tbl cnt a ang lt k 0 ha0 ha2 hsent]
    rfl

open HW_ACTION_CTL in
/-- Witness for C1, the spec's scenario: a one-real-frame row
`[[1,10,20,30,40,50,60],[0,...]]`; after the first gated call joint 2 holds
`30`, and after the full APPLY/WAIT/APPLY cycle (5 gated calls) the player
is idle again. -/
theorem action_run_completes_witness :
    (drive specActionTable 1 1
      (action_set 1 ⟨0, initAngles, 0, 0, 0, 0⟩)).extended_func_angles 2 = 30
    ∧ action_state_get (drive specActionTable 1 5
      (action_set 1 ⟨0, initAngles, 0, 0, 0, 0⟩)) = 0 := by
  have h := action_run_completes specActionTable 1 1 1 initAngles
    (by decide) (by decide) (by decide)
    (fun j hj => by
      have hj0 : j = 0 := by omega
      subst hj0
      decide)
    (by decide)
  refine ⟨?_, ?_⟩
  · have h2 := congrFun (h.1 0 (by decide)) 2
    simpa [specActionTable] using h2
  · simpa using h.2
